import Mathlib

/-!
Shallow embedding of `src/scrapy/analyze_pylint.py`, a three-stage pipeline
(parse → aggregate → format) over pylint's textual output.

File I/O (reading the input lines, writing the output file) is an external
collaborator; the embedding takes the input as the list of lines that
`file.readlines()` would have produced (each then `strip`ped by the code)
and produces the output text as a string.

The Python string primitives the script uses (`str.strip`, `str.split`,
`str.startswith`, slicing, indexing) are implemented here by structural
recursion over the character list of the string, mirroring Python's
semantics (`"".split(":") == [""]`, `strip` removes ASCII whitespace at
both ends, etc.).

Python floats are modelled as exact rationals (`ℚ`); the `:.2f` format
specifier is modelled as rounding the exact value to the nearest hundredth
and printing the integer part, a dot, and two decimal digits.
-/

namespace AnalyzePylint

/-- Python `str.isspace` on one character, restricted to the ASCII
whitespace characters `' '`, `'\t'`, `'\n'`, `'\r'`, `'\x0b'`, `'\x0c'`
(the ones `str.strip()` removes for ASCII text). -/
def pyIsSpace (c : Char) : Bool :=
  c = ' ' || c = '\t' || c = '\n' || c = '\r' ||
  c = Char.ofNat 11 || c = Char.ofNat 12

/-- Python `s.strip()`: remove whitespace from both ends. -/
def pyStrip (s : String) : String :=
  ⟨((s.data.dropWhile pyIsSpace).reverse.dropWhile pyIsSpace).reverse⟩

/-- Split a character list on `':'`; `[] ↦ [[]]`, matching Python's
`"".split(":") == [""]`. -/
def splitOnColon (cs : List Char) : List (List Char) :=
  cs.foldr
    (fun c acc =>
      match acc with
      | [] => [[c]]
      | h :: t => if c = ':' then [] :: h :: t else (c :: h) :: t)
    [[]]

/-- Python `s.split(":")`. -/
def pySplit (s : String) : List String :=
  (splitOnColon s.data).map (fun l => ⟨l⟩)

/-- Python `s.startswith(pre)`. -/
def pyStartsWith (s pre : String) : Bool :=
  pre.data.isPrefixOf s.data

/-- Python `s[n:]`. -/
def pyDropLen (s : String) (n : Nat) : String :=
  ⟨s.data.drop n⟩

/-- One parsed diagnostic: the tuple `(file_info, error_type, full_error)`
appended in `parse_pylint_output`. -/
structure Diagnostic where
  file_info : String
  error_type : Char
  full_error : String
deriving DecidableEq, Repr

/-- The `analysis` dict: Python 3 dicts preserve insertion order, and
re-assigning an existing key keeps its original position, so we model the
dict as an association list whose update-in-place keeps positions. -/
abbrev Report := List (String × List Diagnostic)

/-- `d[k]`, as a total lookup: the value at the first entry whose key is `k`. -/
def pyGet (an : Report) (k : String) : Option (List Diagnostic) :=
  (an.find? (fun p => p.1 = k)).map (fun p => p.2)

/-- `d[k] = v`: overwrite the existing entry in place (keeping its position,
as Python 3 dicts do), else append a new entry at the end. -/
def dictSet (an : Report) (k : String) (v : List Diagnostic) : Report :=
  if an.any (fun p => p.1 = k) then
    an.map (fun p => if p.1 = k then (k, v) else p)
  else
    an ++ [(k, v)]

/-- `d[k].append(x)`: if the key is present, append to its sequence in place;
a missing key would raise `KeyError`, which the enclosing `try` swallows,
leaving the dict unchanged. -/
def dictAppend (an : Report) (k : String) (x : Diagnostic) : Report :=
  match pyGet an k with
  | some _ => an.map (fun p => if p.1 = k then (p.1, p.2 ++ [x]) else p)
  | none => an

/-- The fixed section-marker string. -/
def moduleMarker : String := "************* Module "

/-- The body of the `try` block on one candidate diagnostic line (already
stripped): split on `":"`, take `parts[0].strip()` as the location and
`parts[3].strip()[0]` as the category; any `IndexError` (fewer than four
segments, or an empty stripped fourth segment) is caught and yields no
diagnostic. -/
def parseDiagLine (line : String) : Option Diagnostic :=
  let parts := pySplit line
  let file_info := pyStrip (parts.headD "")
  match parts.get? 3 with
  | none => none
  | some p3 =>
    match (pyStrip p3).data with
    | [] => none
    | c :: _ => some ⟨file_info, c, line⟩

/-- Python truthiness of a string (nonempty strings are truthy). -/
def pyNonEmpty (s : String) : Bool :=
  !(s.data.isEmpty)

/-- Python truthiness of the `current_module` variable (`None` and `""` are
falsy). -/
def strTruthy : Option String → Bool
  | none => false
  | some s => pyNonEmpty s

/-- One iteration of the `for line in lines` loop in `parse_pylint_output`:
the state is `(current_module, analysis)`. -/
def step (st : Option String × Report) (l : String) : Option String × Report :=
  let line := pyStrip l
  if pyStartsWith line moduleMarker then
    let current_module := pyDropLen line moduleMarker.length
    (some current_module, dictSet st.2 current_module [])
  else if strTruthy st.1 && pyNonEmpty line then
    match st.1 with
    | some current_module =>
      match parseDiagLine line with
      | some d => (st.1, dictAppend st.2 current_module d)
      | none => st
    | none => st
  else
    st

/-- `parse_pylint_output`, on the list of input lines. -/
def parse_pylint_output (lines : List String) : Report :=
  (lines.foldl step (none, [])).2

/-- The `pylint_counts` dict of `generate_statistics`. -/
structure PylintCounts where
  E : Nat
  W : Nat
  C : Nat
  R : Nat
  F : Nat
  I : Nat
deriving DecidableEq, Repr

def PylintCounts.init : PylintCounts := ⟨0, 0, 0, 0, 0, 0⟩

/-- `if error_type in pylint_counts: pylint_counts[error_type] += 1`. -/
def PylintCounts.bump (c : PylintCounts) (t : Char) : PylintCounts :=
  if t = 'E' then { c with E := c.E + 1 }
  else if t = 'W' then { c with W := c.W + 1 }
  else if t = 'C' then { c with C := c.C + 1 }
  else if t = 'R' then { c with R := c.R + 1 }
  else if t = 'F' then { c with F := c.F + 1 }
  else if t = 'I' then { c with I := c.I + 1 }
  else c

/-- The counting loop of `generate_statistics`, over all modules' errors. -/
def pylint_counts (analysis : Report) : PylintCounts :=
  (analysis.map (fun p => p.2)).flatten.foldl
    (fun acc d => acc.bump d.error_type) PylintCounts.init

/-- `sum(pylint_counts.values())`. -/
def total_issues (analysis : Report) : Nat :=
  let c := pylint_counts analysis
  c.E + c.W + c.C + c.R + c.F + c.I

/-- `left_sum = pylint_counts['F'] + pylint_counts['E']`. -/
def left_sum (analysis : Report) : Nat :=
  (pylint_counts analysis).F + (pylint_counts analysis).E

/-- `false_positive_rate`, as an exact rational. -/
def false_positive_rate (analysis : Report) : ℚ :=
  if left_sum analysis = 0 then 0
  else 100 - ((left_sum analysis : ℚ) / (total_issues analysis : ℚ)) * 100

/-- A decimal digit character. -/
def digitChar (d : Nat) : Char := Char.ofNat (48 + d % 10)

/-- Floor of a rational, computed on its numerator and denominator. -/
def ratFloor (q : ℚ) : ℤ := Int.fdiv q.num (q.den : ℤ)

/-- Round to the nearest integer, ties to the even neighbour (the rounding
Python uses when formatting floats). -/
def roundHalfEven (q : ℚ) : ℤ :=
  let n := ratFloor q
  let frac := q - (n : ℚ)
  if frac < 1/2 then n
  else if 1/2 < frac then n + 1
  else if n % 2 = 0 then n else n + 1

/-- The `:.2f` format specifier on a (non-negative) value: round to the
nearest hundredth and print integer part, a dot, and two decimal digits. -/
def format2 (q : ℚ) : String :=
  let n := (roundHalfEven (q * 100)).toNat
  toString (n / 100) ++ "." ++ String.mk [digitChar (n / 10), digitChar n]

/-- The statistics string built by `generate_statistics`. -/
def generate_statistics (analysis : Report) : String :=
  let c := pylint_counts analysis
  "Total Issues: " ++ toString (total_issues analysis) ++ "\n" ++
  "Errors: " ++ toString c.E ++ "\n" ++
  "Warnings: " ++ toString c.W ++ "\n" ++
  "Conventions: " ++ toString c.C ++ "\n" ++
  "Refactors: " ++ toString c.R ++ "\n" ++
  "Fatals: " ++ toString c.F ++ "\n" ++
  "Informations: " ++ toString c.I ++ "\n" ++
  "Estimated False Positive Rate: " ++ format2 (false_positive_rate analysis) ++ "%\n"

/-- One diagnostic's contribution to the "Potential Bugs" section of
`write_to_file`: two independent `if`s on `error[1]`. -/
def bugLines (d : Diagnostic) : String :=
  (if d.error_type = 'E' then "Error: " ++ d.full_error ++ "\n" else "") ++
  (if d.error_type = 'F' then "Fatal: " ++ d.full_error ++ "\n" else "")

/-- Concatenation of the strings produced for each element, in order
(the sequence of `file.write` calls). -/
def concatMap (f : α → String) : List α → String
  | [] => ""
  | x :: xs => f x ++ concatMap f xs

/-- The full text that `write_to_file` writes to the output file. -/
def write_to_file (analysis : Report) (statistics : String) : String :=
  "Potential Bugs:\n" ++
  concatMap bugLines ((analysis.map (fun p => p.2)).flatten) ++
  "\nStatistics:\n" ++ statistics

/-- The whole pipeline of the `__main__` block, from input lines to output
text. -/
def pipeline (lines : List String) : String :=
  let analysis := parse_pylint_output lines
  write_to_file analysis (generate_statistics analysis)

/-- The categories recognized by the counts dict: `error_type in pylint_counts`. -/
def recognized (t : Char) : Bool :=
  t == 'E' || t == 'W' || t == 'C' || t == 'R' || t == 'F' || t == 'I'

/-- The keys of the `analysis` dict, in order. -/
def keysOf (an : Report) : List String :=
  an.map (fun p => p.1)

/-- Parsing restarted just after a module marker with label `m`: the current
unit is `m` and the report holds `m` with an empty sequence. -/
def parseFrom (m : String) (ls : List String) : Report :=
  (List.foldl step (some m, [(m, [])]) ls).2

/-- The sum of the six counters. -/
def sumC (c : PylintCounts) : Nat :=
  c.E + c.W + c.C + c.R + c.F + c.I

/-- Scenario A of the specification: one module with one Error and one
Warning diagnostic. -/
def scenarioA : List String :=
  ["************* Module foo",
   "foo.py:1:0: E0001: syntax error (syntax-error)",
   "foo.py:2:0: W0611: unused import (unused-import)"]

def reportA : Report := parse_pylint_output scenarioA

/-- An input with no section-marker line. -/
def noMarkerLines : List String :=
  ["hello world", "foo.py:1:0: E0001: syntax error (syntax-error)"]

/-- Lines before the repeated marker in the duplicate-label scenario. -/
def dupLabelPre : List String :=
  ["************* Module foo", "foo.py:1:0: E0001: first (a)"]

/-- Lines after the repeated marker in the duplicate-label scenario. -/
def dupLabelSuf : List String :=
  ["foo.py:2:0: W0611: second (b)"]

example :
    parse_pylint_output
      ["************* Module foo",
       "foo.py:1:0: E0001: syntax error (syntax-error)",
       "foo.py:2:0: W0611: unused import (unused-import)"] =
    [("foo",
      [⟨"foo.py", 'E', "foo.py:1:0: E0001: syntax error (syntax-error)"⟩,
       ⟨"foo.py", 'W', "foo.py:2:0: W0611: unused import (unused-import)"⟩])] := by
  decide

section DictLemmas

/-- `find?` commutes with a key-preserving map of the entries. -/
lemma find?_map_key_preserving (F : String × List Diagnostic → String × List Diagnostic)
    (hF : ∀ p, (F p).1 = p.1) (an : Report) (m : String) :
    (an.map F).find? (fun p => p.1 = m) = (an.find? (fun p => p.1 = m)).map F := by
  induction an with
  | nil => rfl
  | cons p an ih =>
    by_cases hp : p.1 = m
    · simp [List.find?_cons, hF, hp]
    · simp [List.find?_cons, hF, hp, ih]

lemma pyGet_map (F : String × List Diagnostic → String × List Diagnostic)
    (hF : ∀ p, (F p).1 = p.1) (an : Report) (m : String) :
    pyGet (an.map F) m = ((an.find? (fun p => p.1 = m)).map F).map (fun p => p.2) := by
  unfold pyGet
  rw [find?_map_key_preserving F hF]

lemma find?_key (an : Report) (m : String) (p : String × List Diagnostic)
    (h : an.find? (fun q => q.1 = m) = some p) : p.1 = m := by
  have := List.find?_some h
  simpa using this

lemma pyGet_dictSet (an : Report) (k : String) (v : List Diagnostic) (m : String) :
    pyGet (dictSet an k v) m = if m = k then some v else pyGet an m := by
  unfold dictSet
  by_cases hmem : an.any (fun p => p.1 = k) = true
  · rw [if_pos hmem]
    have hF : ∀ p : String × List Diagnostic,
        ((if p.1 = k then (k, v) else p) : String × List Diagnostic).1 = p.1 := by
      intro p; by_cases h : p.1 = k <;> simp [h]
    rw [pyGet_map _ hF]
    by_cases hmk : m = k
    · subst hmk
      rcases List.any_eq_true.mp hmem with ⟨p, hpmem, hpk⟩
      simp only [decide_eq_true_eq] at hpk
      have hsome : (an.find? (fun q => q.1 = m)).isSome := by
        rw [List.find?_isSome]
        exact ⟨p, hpmem, by simpa using hpk⟩
      rcases Option.isSome_iff_exists.mp hsome with ⟨q, hq⟩
      have hqk : q.1 = m := find?_key an m q hq
      simp [hq, hqk, if_pos rfl]
    · rw [if_neg hmk]
      unfold pyGet
      cases hfind : an.find? (fun q => q.1 = m) with
      | none => simp [hfind]
      | some q =>
        have hqm : q.1 = m := find?_key an m q hfind
        have hqk : ¬ q.1 = k := by rw [hqm]; exact hmk
        simp [hfind, hqk]
  · rw [if_neg hmem]
    have hnone : an.find? (fun q => q.1 = k) = none := by
      rw [List.find?_eq_none]
      intro p hp
      intro hcontra
      apply hmem
      exact List.any_eq_true.mpr ⟨p, hp, hcontra⟩
    by_cases hmk : m = k
    · subst hmk
      unfold pyGet
      rw [List.find?_append, hnone]
      simp [List.find?_cons]
    · unfold pyGet
      rw [List.find?_append]
      cases hfind : an.find? (fun q => q.1 = m) with
      | none =>
        simp only [hfind, Option.none_or]
        simp only [List.find?_cons]
        have hne : ¬ ((k, v) : String × List Diagnostic).1 = m := fun h => hmk h.symm
        simp [hne, hmk]
      | some q => simp [hfind, hmk]

lemma pyGet_dictAppend (an : Report) (k : String) (x : Diagnostic) (m : String) :
    pyGet (dictAppend an k x) m =
      if m = k then (pyGet an k).map (fun v => v ++ [x]) else pyGet an m := by
  unfold dictAppend
  cases hget : pyGet an k with
  | none =>
    by_cases hmk : m = k
    · subst hmk; simp [hget]
    · simp [hmk]
  | some v =>
    have hF : ∀ p : String × List Diagnostic,
        ((if p.1 = k then (p.1, p.2 ++ [x]) else p) : String × List Diagnostic).1 = p.1 := by
      intro p; by_cases h : p.1 = k <;> simp [h]
    rw [pyGet_map _ hF]
    by_cases hmk : m = k
    · rw [if_pos hmk]
      have hget' : pyGet an m = some v := by rw [hmk]; exact hget
      unfold pyGet at hget'
      cases hfind : an.find? (fun q => q.1 = m) with
      | none => rw [hfind] at hget'; simp at hget'
      | some q =>
        rw [hfind] at hget'
        simp only [Option.map] at hget'
        have hqv : q.2 = v := by simpa using hget'
        have hqm : q.1 = m := find?_key an m q hfind
        have hqk : q.1 = k := hqm.trans hmk
        simp [hqk, hqv]
    · rw [if_neg hmk]
      unfold pyGet
      cases hfind : an.find? (fun q => q.1 = m) with
      | none => simp [hfind]
      | some q =>
        have hqm : q.1 = m := find?_key an m q hfind
        have hqk : ¬ q.1 = k := by rw [hqm]; exact hmk
        simp [hfind, hqk]

end DictLemmas

section StepLemmas

/-- On a section-marker line, `step` opens a fresh unit: the label is the
remainder of the stripped line after the marker, it is stored with an empty
sequence, and it becomes the current unit. -/
lemma step_marker (st : Option String × Report) (l : String)
    (h : pyStartsWith (pyStrip l) moduleMarker = true) :
    step st l =
      (some (pyDropLen (pyStrip l) moduleMarker.length),
       dictSet st.2 (pyDropLen (pyStrip l) moduleMarker.length) []) := by
  unfold step
  simp [h]

/-- A line that is not a marker and yields no diagnostic leaves the parser
state unchanged. -/
lemma step_skip (cur : Option String) (an : Report) (l : String)
    (hm : pyStartsWith (pyStrip l) moduleMarker = false)
    (hd : parseDiagLine (pyStrip l) = none) :
    step (cur, an) l = (cur, an) := by
  unfold step
  simp only [hm, Bool.false_eq_true, if_false]
  cases cur with
  | none => simp [strTruthy]
  | some c =>
    by_cases h2 : (strTruthy (some c) && pyNonEmpty (pyStrip l)) = true
    · simp [h2, hd]
    · simp [h2]

/-- The current-unit component of the state after `step` does not depend on
the stored report, and the lookup of any label depends only on its previous
lookup. -/
lemma step_congr (l : String) (cur : Option String) (an an' : Report) (m : String)
    (h : pyGet an m = pyGet an' m) :
    (step (cur, an) l).1 = (step (cur, an') l).1 ∧
    pyGet (step (cur, an) l).2 m = pyGet (step (cur, an') l).2 m := by
  unfold step
  by_cases hm : pyStartsWith (pyStrip l) moduleMarker = true
  · simp only [hm, if_true]
    refine ⟨trivial, ?_⟩
    rw [pyGet_dictSet, pyGet_dictSet]
    split_ifs with hx
    · rfl
    · exact h
  · simp only [hm, Bool.false_eq_true, if_false]
    cases cur with
    | none => exact ⟨rfl, h⟩
    | some c =>
      by_cases h2 : (strTruthy (some c) && pyNonEmpty (pyStrip l)) = true
      · simp only [h2, if_true]
        cases hd : parseDiagLine (pyStrip l) with
        | none => exact ⟨rfl, h⟩
        | some d =>
          refine ⟨rfl, ?_⟩
          rw [pyGet_dictAppend, pyGet_dictAppend]
          split_ifs with hx
          · rw [hx] at h; rw [h]
          · exact h
      · simp only [h2, Bool.false_eq_true, if_false]
        exact ⟨trivial, h⟩

/-- Lookups in the final report depend only on the lookup in the starting
report, for a fixed current unit and remaining lines. -/
lemma foldl_step_congr (ls : List String) (cur : Option String) (an an' : Report) (m : String)
    (h : pyGet an m = pyGet an' m) :
    pyGet ((List.foldl step (cur, an) ls).2) m =
      pyGet ((List.foldl step (cur, an') ls).2) m := by
  induction ls generalizing cur an an' with
  | nil => exact h
  | cons l ls ih =>
    simp only [List.foldl_cons]
    have hc := step_congr l cur an an' m h
    rcases hs : step (cur, an) l with ⟨c1, a1⟩
    rcases hs' : step (cur, an') l with ⟨c2, a2⟩
    rw [hs, hs'] at hc
    obtain ⟨hcc, haa⟩ := hc
    simp only at hcc haa
    cases hcc
    exact ih c1 a1 a2 haa

/-- With no marker line in sight and no unit open, the parser state never
changes. -/
lemma foldl_step_no_marker (ls : List String) (an : Report)
    (h : ∀ l ∈ ls, pyStartsWith (pyStrip l) moduleMarker = false) :
    List.foldl step (none, an) ls = (none, an) := by
  induction ls with
  | nil => rfl
  | cons l ls ih =>
    simp only [List.foldl_cons]
    have hstep : step (none, an) l = (none, an) := by
      unfold step
      simp [h l (by simp), strTruthy]
    rw [hstep]
    exact ih (fun x hx => h x (by simp [hx]))

lemma keysOf_dictSet (an : Report) (k : String) (v : List Diagnostic) :
    keysOf (dictSet an k v) =
      if an.any (fun p => p.1 = k) = true then keysOf an else keysOf an ++ [k] := by
  unfold dictSet keysOf
  split_ifs with hmem
  · rw [List.map_map]
    apply List.map_congr_left
    intro p hp
    by_cases hpk : p.1 = k <;> simp [hpk]
  · simp

lemma keysOf_dictAppend (an : Report) (k : String) (x : Diagnostic) :
    keysOf (dictAppend an k x) = keysOf an := by
  unfold dictAppend
  cases pyGet an k with
  | none => rfl
  | some v =>
    unfold keysOf
    rw [List.map_map]
    apply List.map_congr_left
    intro p hp
    by_cases hpk : p.1 = k <;> simp [hpk]

lemma notMem_keysOf (an : Report) (k : String)
    (h : ¬ an.any (fun p => p.1 = k) = true) : k ∉ keysOf an := by
  intro hk
  rcases List.mem_map.mp hk with ⟨p, hp, hpk⟩
  exact h (List.any_eq_true.mpr ⟨p, hp, by simp [hpk]⟩)

/-- `step` preserves uniqueness of the report's keys. -/
lemma nodup_keys_step (cur : Option String) (an : Report) (l : String)
    (h : (keysOf an).Nodup) : (keysOf (step (cur, an) l).2).Nodup := by
  unfold step
  by_cases hm : pyStartsWith (pyStrip l) moduleMarker = true
  · simp only [hm, if_true]
    rw [keysOf_dictSet]
    split_ifs with hmem
    · exact h
    · have hk := notMem_keysOf an (pyDropLen (pyStrip l) moduleMarker.length) hmem
      simp [List.nodup_append, h, List.Disjoint]
      intro a ha hak
      exact hk (hak ▸ ha)
  · simp only [hm, Bool.false_eq_true, if_false]
    cases cur with
    | none => exact h
    | some c =>
      by_cases h2 : (strTruthy (some c) && pyNonEmpty (pyStrip l)) = true
      · simp only [h2, if_true]
        cases parseDiagLine (pyStrip l) with
        | none => exact h
        | some d =>
          simp only
          rw [keysOf_dictAppend]
          exact h
      · simp only [h2, Bool.false_eq_true, if_false]
        exact h

/-- The whole parsing loop preserves uniqueness of the report's keys. -/
lemma nodup_keys_foldl (ls : List String) (st : Option String × Report)
    (h : (keysOf st.2).Nodup) : (keysOf (List.foldl step st ls).2).Nodup := by
  induction ls generalizing st with
  | nil => exact h
  | cons l ls ih =>
    simp only [List.foldl_cons]
    obtain ⟨cur, an⟩ := st
    exact ih _ (nodup_keys_step cur an l h)

/-- A line with fewer than four colon segments, or whose stripped fourth
segment is empty, produces no diagnostic. -/
lemma parseDiagLine_eq_none (line : String)
    (h : (pySplit line).length < 4 ∨
         pyStrip (((pySplit line).get? 3).getD "") = "") :
    parseDiagLine line = none := by
  unfold parseDiagLine
  cases hq : (pySplit line).get? 3 with
  | none => simp only [hq]
  | some p3 =>
    rcases h with h | h
    · exfalso
      rcases List.get?_eq_some.mp hq with ⟨hlen, _⟩
      omega
    · rw [hq] at h
      simp only [Option.getD] at h
      have hdata : (pyStrip p3).data = [] := by rw [h]
      simp only [hq, hdata]

end StepLemmas

section AggregateLemmas

lemma sumC_bump (c : PylintCounts) (t : Char) :
    sumC (c.bump t) = sumC c + (if recognized t = true then 1 else 0) := by
  unfold PylintCounts.bump sumC recognized
  split_ifs <;> simp_all <;> omega

lemma sumC_foldl (ds : List Diagnostic) (c : PylintCounts) :
    sumC (ds.foldl (fun acc d => acc.bump d.error_type) c) =
      sumC c + (ds.filter (fun d => recognized d.error_type)).length := by
  induction ds generalizing c with
  | nil => simp
  | cons d ds ih =>
    simp only [List.foldl_cons, List.filter_cons]
    rw [ih, sumC_bump]
    by_cases h : recognized d.error_type = true
    · simp only [h, if_true, List.length_cons]
      omega
    · simp only [h, Bool.false_eq_true, if_false]
      omega

lemma bump_unrecognized (c : PylintCounts) (t : Char)
    (h : recognized t = false) : c.bump t = c := by
  unfold PylintCounts.bump
  split_ifs with h1 h2 h3 h4 h5 h6 <;> simp_all [recognized]

/-- The sum of Fatal and Error counts never exceeds the sum of all six. -/
lemma left_sum_le_total (an : Report) : left_sum an ≤ total_issues an := by
  show (pylint_counts an).F + (pylint_counts an).E ≤
    (pylint_counts an).E + (pylint_counts an).W + (pylint_counts an).C +
      (pylint_counts an).R + (pylint_counts an).F + (pylint_counts an).I
  omega

lemma digitChar_isDigit (d : Nat) : (digitChar d).isDigit = true := by
  unfold digitChar
  have h : d % 10 < 10 := Nat.mod_lt _ (by norm_num)
  generalize hm : d % 10 = m at h
  interval_cases m <;> decide

/-- The per-diagnostic output lines of the "Potential Bugs" section equal
the lines of the diagnostics whose category is `E` or `F`, in order. -/
lemma concatMap_bugLines (ds : List Diagnostic) :
    concatMap bugLines ds =
      concatMap
        (fun d => (if d.error_type = 'E' then "Error: " else "Fatal: ") ++ d.full_error ++ "\n")
        (ds.filter (fun d => d.error_type == 'E' || d.error_type == 'F')) := by
  induction ds with
  | nil => rfl
  | cons d ds ih =>
    simp only [concatMap, List.filter_cons]
    by_cases hE : d.error_type = 'E'
    · have hpred : (d.error_type == 'E' || d.error_type == 'F') = true := by simp [hE]
      rw [hpred]
      simp only [if_true, concatMap, ih]
      have hF : ¬ d.error_type = 'F' := by rw [hE]; decide
      simp [bugLines, hE, hF, String.append_empty]
    · by_cases hF : d.error_type = 'F'
      · have hpred : (d.error_type == 'E' || d.error_type == 'F') = true := by simp [hF]
        rw [hpred]
        simp only [if_true, concatMap, ih]
        simp [bugLines, hE, hF, String.empty_append]
      · have hpred : (d.error_type == 'E' || d.error_type == 'F') = false := by
          simp [hE, hF]
        rw [hpred]
        simp only [Bool.false_eq_true, if_false, ih]
        simp [bugLines, hE, hF, String.empty_append]

end AggregateLemmas

section Claims

/-- C1: for every Report, the false positive rate is exactly 0 when
critical (`left_sum`, the Fatal count plus the Error count) is 0,
regardless of `total_issues`; otherwise it equals
`100 - (critical / total_issues * 100)`; and in the statistics text it is
rendered as an integer part, a dot, exactly two decimal digits, and `%`. -/
theorem C1_false_positive_rate (an : Report) :
    (left_sum an = 0 → false_positive_rate an = 0) ∧
    (left_sum an ≠ 0 →
      false_positive_rate an =
        100 - ((left_sum an : ℚ) / (total_issues an : ℚ)) * 100) ∧
    (∃ t d1 d2, d1.isDigit = true ∧ d2.isDigit = true ∧
      format2 (false_positive_rate an) = t ++ "." ++ String.mk [d1, d2]) ∧
    (∃ s, generate_statistics an =
      s ++ "Estimated False Positive Rate: " ++
        format2 (false_positive_rate an) ++ "%\n") := by
  refine ⟨?_, ?_, ?_, ?_⟩
  · intro h
    unfold false_positive_rate
    rw [if_pos h]
  · intro h
    unfold false_positive_rate
    rw [if_neg h]
  · exact ⟨toString ((roundHalfEven (false_positive_rate an * 100)).toNat / 100),
      digitChar ((roundHalfEven (false_positive_rate an * 100)).toNat / 10),
      digitChar ((roundHalfEven (false_positive_rate an * 100)).toNat),
      digitChar_isDigit _, digitChar_isDigit _, rfl⟩
  · exact ⟨"Total Issues: " ++ toString (total_issues an) ++ "\n" ++
      "Errors: " ++ toString (pylint_counts an).E ++ "\n" ++
      "Warnings: " ++ toString (pylint_counts an).W ++ "\n" ++
      "Conventions: " ++ toString (pylint_counts an).C ++ "\n" ++
      "Refactors: " ++ toString (pylint_counts an).R ++ "\n" ++
      "Fatals: " ++ toString (pylint_counts an).F ++ "\n" ++
      "Informations: " ++ toString (pylint_counts an).I ++ "\n", rfl⟩

/-- Witness for C1 at Scenario A (one Error, one Warning): critical is
nonzero, so the rate takes the general formula. -/
theorem C1_false_positive_rate_witness :
    left_sum reportA ≠ 0 ∧
    false_positive_rate reportA =
      100 - ((left_sum reportA : ℚ) / (total_issues reportA : ℚ)) * 100 :=
  ⟨by decide, (C1_false_positive_rate reportA).2.1 (by decide)⟩

/-- C2: a non-marker line with fewer than four colon segments, or whose
stripped fourth segment is empty, is silently skipped: the parser state is
unchanged and parsing continues with the remaining lines. -/
theorem C2_malformed_line_skipped (cur : Option String) (an : Report)
    (line : String) (rest : List String)
    (hm : pyStartsWith (pyStrip line) moduleMarker = false)
    (h : (pySplit (pyStrip line)).length < 4 ∨
         pyStrip (((pySplit (pyStrip line)).get? 3).getD "") = "") :
    List.foldl step (cur, an) (line :: rest) = List.foldl step (cur, an) rest := by
  simp only [List.foldl_cons]
  rw [step_skip cur an line hm (parseDiagLine_eq_none _ h)]

/-- Witness for C2: the two-segment line `"foo.py:oops"` under an open
unit is dropped without affecting the rest of the parse. -/
theorem C2_malformed_line_skipped_witness :
    List.foldl step (some "foo", [("foo", [])])
        ["foo.py:oops", "foo.py:1:0: E0001: x (y)"] =
      List.foldl step (some "foo", [("foo", [])]) ["foo.py:1:0: E0001: x (y)"] :=
  C2_malformed_line_skipped (some "foo") [("foo", [])] "foo.py:oops"
    ["foo.py:1:0: E0001: x (y)"] (by decide) (by decide)

/-- C3: after any occurrence of a marker line with label `m`, the final
report's entry for `m` is determined by the lines after that marker alone,
starting from a fresh empty sequence — so a repeated label keeps only the
diagnostics parsed after its last marker — and the report's keys are
unique, so the label maps to exactly one sequence. -/
theorem C3_duplicate_label_overwritten (pre suf : List String) (mline : String)
    (h : pyStartsWith (pyStrip mline) moduleMarker = true) :
    pyGet (parse_pylint_output (pre ++ mline :: suf))
        (pyDropLen (pyStrip mline) moduleMarker.length) =
      pyGet (parseFrom (pyDropLen (pyStrip mline) moduleMarker.length) suf)
        (pyDropLen (pyStrip mline) moduleMarker.length) ∧
    (keysOf (parse_pylint_output (pre ++ mline :: suf))).Nodup := by
  constructor
  · unfold parse_pylint_output parseFrom
    rw [List.foldl_append]
    simp only [List.foldl_cons]
    rw [step_marker _ _ h]
    apply foldl_step_congr
    rw [pyGet_dictSet]
    simp [pyGet]
  · unfold parse_pylint_output
    exact nodup_keys_foldl _ _ (by simp [keysOf])

/-- Witness for C3, Scenario C: the label `"foo"` appears twice; the entry
for `"foo"` holds exactly the diagnostics after the second marker. -/
theorem C3_duplicate_label_overwritten_witness :
    pyGet (parse_pylint_output (dupLabelPre ++ "************* Module foo" :: dupLabelSuf))
        (pyDropLen (pyStrip "************* Module foo") moduleMarker.length) =
      pyGet (parseFrom (pyDropLen (pyStrip "************* Module foo") moduleMarker.length)
          dupLabelSuf)
        (pyDropLen (pyStrip "************* Module foo") moduleMarker.length) ∧
    (keysOf (parse_pylint_output (dupLabelPre ++ "************* Module foo" :: dupLabelSuf))).Nodup :=
  C3_duplicate_label_overwritten dupLabelPre dupLabelSuf "************* Module foo" (by decide)

/-- C4: `total_issues` equals the number of diagnostics across all units
whose category is one of the six recognized codes, and bumping the counts
with an unrecognized category is the identity. -/
theorem C4_total_issues_counts_recognized (an : Report) :
    total_issues an =
      (((an.map (fun p => p.2)).flatten).filter
        (fun d => recognized d.error_type)).length ∧
    ∀ (c : PylintCounts) (t : Char), recognized t = false → c.bump t = c := by
  constructor
  · show sumC (pylint_counts an) = _
    unfold pylint_counts
    rw [sumC_foldl]
    simp [sumC, PylintCounts.init]
  · exact fun c t h => bump_unrecognized c t h

/-- Witness for C4: the unrecognized category `'X'` increments no bucket. -/
theorem C4_total_issues_counts_recognized_witness :
    PylintCounts.init.bump 'X' = PylintCounts.init :=
  (C4_total_issues_counts_recognized reportA).2 PylintCounts.init 'X' (by decide)

/-- C5: the output text is the "Potential Bugs:" header followed by exactly
the lines of the diagnostics of category `E` (as `"Error: "` plus the raw
line) or `F` (as `"Fatal: "` plus the raw line), in unit insertion order
and sequence order, then the statistics; other categories contribute no
line. -/
theorem C5_bug_section_lists_E_and_F (an : Report) (stats : String) :
    write_to_file an stats =
      "Potential Bugs:\n" ++
        concatMap
          (fun d => (if d.error_type = 'E' then "Error: " else "Fatal: ") ++
            d.full_error ++ "\n")
          (((an.map (fun p => p.2)).flatten).filter
            (fun d => d.error_type == 'E' || d.error_type == 'F')) ++
      "\nStatistics:\n" ++ stats := by
  unfold write_to_file
  rw [concatMap_bugLines]

/-- C6 counterexample: on the marker line `"************* Module  foo"`
(two spaces after `Module`), the code stores the label `" foo"` with its
leading space — the label is not trimmed as the claim states, and no unit
named `"foo"` exists. -/
theorem C6_label_not_trimmed_counterexample :
    parse_pylint_output ["************* Module  foo"] = [(" foo", [])] ∧
    pyGet (parse_pylint_output ["************* Module  foo"]) "foo" = none := by
  decide

/-- C6 as amended: on a line whose stripped content begins with the marker,
the parser opens a new unit whose label is the remainder of the stripped
line after the marker, taken verbatim (leading whitespace after the marker
is preserved; trailing whitespace is absent only because the whole line was
stripped); the unit is stored with an empty sequence and becomes the
current unit. -/
theorem C6_marker_opens_unit (st : Option String × Report) (l : String)
    (h : pyStartsWith (pyStrip l) moduleMarker = true) :
    step st l =
      (some (pyDropLen (pyStrip l) moduleMarker.length),
       dictSet st.2 (pyDropLen (pyStrip l) moduleMarker.length) []) ∧
    pyGet (step st l).2 (pyDropLen (pyStrip l) moduleMarker.length) = some [] := by
  refine ⟨step_marker st l h, ?_⟩
  rw [step_marker st l h]
  simp [pyGet_dictSet]

/-- Witness for C6 (amended) on a concrete marker line. -/
theorem C6_marker_opens_unit_witness :
    step (none, ([] : Report)) "************* Module foo" =
      (some (pyDropLen (pyStrip "************* Module foo") moduleMarker.length),
       dictSet [] (pyDropLen (pyStrip "************* Module foo") moduleMarker.length) []) ∧
    pyGet (step (none, ([] : Report)) "************* Module foo").2
        (pyDropLen (pyStrip "************* Module foo") moduleMarker.length) = some [] :=
  C6_marker_opens_unit (none, []) "************* Module foo" (by decide)

/-- C7: an input with no section-marker line yields an empty report, zero
total issues, a zero false-positive rate, and an output whose "Potential
Bugs:" section is empty (nothing between the header and the blank line
before "Statistics:"). -/
theorem C7_no_marker_empty_report (lines : List String)
    (h : ∀ l ∈ lines, pyStartsWith (pyStrip l) moduleMarker = false) :
    parse_pylint_output lines = [] ∧
    total_issues (parse_pylint_output lines) = 0 ∧
    false_positive_rate (parse_pylint_output lines) = 0 ∧
    pipeline lines =
      "Potential Bugs:\n" ++ "" ++ "\nStatistics:\n" ++ generate_statistics [] ∧
    pipeline lines =
      "Potential Bugs:\n\nStatistics:\nTotal Issues: 0\nErrors: 0\nWarnings: 0\nConventions: 0\nRefactors: 0\nFatals: 0\nInformations: 0\nEstimated False Positive Rate: 0.00%\n" := by
  have hp : parse_pylint_output lines = [] := by
    unfold parse_pylint_output
    rw [foldl_step_no_marker lines [] h]
  have hpipe : pipeline lines = write_to_file [] (generate_statistics []) := by
    unfold pipeline
    rw [hp]
  refine ⟨hp, by rw [hp]; rfl, by rw [hp]; with_unfolding_all decide, ?_, ?_⟩
  · rw [hpipe]
    rfl
  · rw [hpipe]
    set_option maxRecDepth 4000 in
    with_unfolding_all decide

/-- Witness for C7 on an input whose lines are not markers. -/
theorem C7_no_marker_empty_report_witness :
    parse_pylint_output noMarkerLines = [] :=
  (C7_no_marker_empty_report noMarkerLines (by decide)).1

/-- C8: the pipeline is deterministic — it is a pure function of the input
lines, so two runs on identical input text produce identical output text. -/
theorem C8_pipeline_deterministic (lines1 lines2 : List String)
    (h : lines1 = lines2) :
    pipeline lines1 = pipeline lines2 := by
  rw [h]

/-- Witness for C8: two runs on Scenario A agree. -/
theorem C8_pipeline_deterministic_witness :
    pipeline scenarioA = pipeline scenarioA :=
  C8_pipeline_deterministic scenarioA scenarioA rfl

/-- C9: whenever critical (`left_sum`) is positive, `total_issues` is
positive too (the Fatal and Error counts are among its summands), so the
division in the general formula never divides by zero. -/
theorem C9_division_safe (an : Report) (h : 0 < left_sum an) :
    0 < total_issues an ∧ (total_issues an : ℚ) ≠ 0 := by
  have h1 : 0 < total_issues an := lt_of_lt_of_le h (left_sum_le_total an)
  refine ⟨h1, ?_⟩
  exact_mod_cast h1.ne'

/-- Witness for C9 at Scenario A, where critical is 1. -/
theorem C9_division_safe_witness :
    0 < left_sum reportA ∧
    (0 < total_issues reportA ∧ (total_issues reportA : ℚ) ≠ 0) :=
  ⟨by decide, C9_division_safe reportA (by decide)⟩

/-- C10: the false positive rate always lies in `[0, 100]`: it is 0 when
critical is 0, critical never exceeds `total_issues`, and when critical is
positive the rate is strictly below 100. -/
theorem C10_rate_in_range (an : Report) :
    0 ≤ false_positive_rate an ∧ false_positive_rate an ≤ 100 ∧
    left_sum an ≤ total_issues an ∧
    (left_sum an = 0 → false_positive_rate an = 0) ∧
    (0 < left_sum an → false_positive_rate an < 100) := by
  have hle := left_sum_le_total an
  unfold false_positive_rate
  by_cases h : left_sum an = 0
  · rw [if_pos h]
    exact ⟨le_refl 0, by norm_num, hle, fun _ => rfl, fun _ => by norm_num⟩
  · rw [if_neg h]
    have hL : 0 < left_sum an := Nat.pos_of_ne_zero h
    have hT : 0 < total_issues an := lt_of_lt_of_le hL hle
    have hLq : (0 : ℚ) < left_sum an := by exact_mod_cast hL
    have hTq : (0 : ℚ) < total_issues an := by exact_mod_cast hT
    have hleq : (left_sum an : ℚ) ≤ total_issues an := by exact_mod_cast hle
    have hdiv_pos : 0 < (left_sum an : ℚ) / total_issues an := div_pos hLq hTq
    have hdiv_le : (left_sum an : ℚ) / total_issues an ≤ 1 :=
      (div_le_one hTq).mpr hleq
    refine ⟨by linarith, by linarith, hle, fun h0 => absurd h0 h, fun _ => by linarith⟩

/-- Witness for C10 at Scenario A: the rate is strictly below 100 there. -/
theorem C10_rate_in_range_witness :
    false_positive_rate reportA < 100 :=
  (C10_rate_in_range reportA).2.2.2.2 (by decide)

end Claims

end AnalyzePylint
